import Mathlib

/-!
Verification of the data-normalization pipeline of `stock_crypto_tui.py`.

The embedding models the pure computational core of the script:
`calculate_changes`, `calculate_ytd_change`, `get_friday_data`,
`get_crypto_friday_data`, the post-fetch normalization of `get_stock_data`
and `get_crypto_data`, and the per-ticker dispatch/collection loop of
`display_grid`.

Numeric model: prices are rationals.  Pandas/NumPy float division by zero
does not raise: it produces `inf`, `-inf` or `nan`; plain Python float
division by zero raises `ZeroDivisionError`.  Both behaviours are modelled
explicitly (`PyFloat`, `PyErr`), since the script mixes the two regimes.
Fallible Python code (out-of-bounds `iloc`, `ZeroDivisionError`,
`TypeError`, `KeyError`) is modelled with `Except PyErr`.
-/

set_option autoImplicit false

deriving instance DecidableEq for Except

namespace StockCryptoTui

/-- Python exception kinds that the modelled code can raise. -/
inductive PyErr where
  | indexError
  | zeroDivisionError
  | typeError
  | keyError
deriving DecidableEq, Repr

/-- Result of a NumPy floating-point operation: a finite value (modelled as a
rational) or one of the non-finite floats. -/
inductive PyFloat where
  | finite (q : ℚ)
  | inf
  | negInf
  | nan
deriving DecidableEq, Repr

/-- `PyFloat.isFinite x` holds exactly for `finite q`. -/
def PyFloat.isFinite : PyFloat → Bool
  | .finite _ => true
  | _ => false

/-- NumPy division `a / b` on float64: division by zero yields `inf`, `-inf`
or `nan` according to the sign of the numerator instead of raising. -/
def npDiv (a b : ℚ) : PyFloat :=
  if b = 0 then
    if 0 < a then .inf else if a < 0 then .negInf else .nan
  else
    .finite (a / b)

/-- Multiplication of a float value by the positive literal `100`
(as in `(...) * 100` in the source); `inf`, `-inf` and `nan` absorb. -/
def pyMul100 : PyFloat → PyFloat
  | .finite q => .finite (q * 100)
  | .inf => .inf
  | .negInf => .negInf
  | .nan => .nan

/-- One row of the yfinance history `DataFrame`: the index exposes a
comparable timestamp (`ts`), a calendar year and a weekday (Monday = 0,
Friday = 4), and the row carries the `Close` price.  Only these accessors
are used by the source. -/
structure Row where
  ts : Int
  year : Int
  weekday : Nat
  close : ℚ
deriving DecidableEq, Repr

/-- Python `str.upper()` restricted to the ASCII ticker symbols this
program handles: upper-case every character. -/
def upper (s : String) : String := ⟨s.data.map Char.toUpper⟩

/-- The `Close` column of a history frame. -/
def closes (hist : List Row) : List ℚ := hist.map (·.close)

/-- Pandas positional scalar access `xs.iloc[i]`: a negative index counts
from the end; out of bounds raises `IndexError`. -/
def iloc (xs : List ℚ) (i : Int) : Except PyErr ℚ :=
  let j : Int := if i < 0 then (xs.length : Int) + i else i
  if j < 0 then .error .indexError
  else
    match xs.get? j.toNat with
    | some v => .ok v
    | none => .error .indexError

/-- The `'24h'` block of `calculate_changes` (lines 203-206):
`((current - Close.iloc[-2]) / Close.iloc[-2]) * 100` when `len >= 2`,
else `0`. -/
def change_24h (hist : List Row) (current_price : ℚ) : Except PyErr PyFloat :=
  if 2 ≤ hist.length then
    (iloc (closes hist) (-2)).map (fun a => pyMul100 (npDiv (current_price - a) a))
  else
    .ok (.finite 0)

/-- The `'7d'` block of `calculate_changes` (lines 209-212): guard
`len >= 7`, access `Close.iloc[-8]`. -/
def change_7d (hist : List Row) (current_price : ℚ) : Except PyErr PyFloat :=
  if 7 ≤ hist.length then
    (iloc (closes hist) (-8)).map (fun a => pyMul100 (npDiv (current_price - a) a))
  else
    .ok (.finite 0)

/-- The `'30d'` block of `calculate_changes` (lines 215-218): guard
`len >= 30`, access `Close.iloc[-31]`. -/
def change_30d (hist : List Row) (current_price : ℚ) : Except PyErr PyFloat :=
  if 30 ≤ hist.length then
    (iloc (closes hist) (-31)).map (fun a => pyMul100 (npDiv (current_price - a) a))
  else
    .ok (.finite 0)

/-- The `'ytd'` block of `calculate_changes` (lines 221-230): restrict to
rows of the current year; if nonempty use its first `Close`, otherwise for
a nonempty frame use the very first `Close`, otherwise `0`. -/
def change_ytd (hist : List Row) (current_price : ℚ) (nowYear : Int) :
    Except PyErr PyFloat :=
  let ytd_data := hist.filter (fun r => r.year = nowYear)
  if ytd_data.isEmpty = false then
    (iloc (closes ytd_data) 0).map (fun a => pyMul100 (npDiv (current_price - a) a))
  else if hist.isEmpty = false then
    (iloc (closes hist) 0).map (fun a => pyMul100 (npDiv (current_price - a) a))
  else
    .ok (.finite 0)

/-- The `{'24h', '7d', '30d', 'ytd'}` result dict of `calculate_changes`. -/
structure ChangeSet where
  h24 : PyFloat
  d7 : PyFloat
  d30 : PyFloat
  ytd : PyFloat
deriving DecidableEq, Repr

/-- `calculate_changes(hist_data, current_price)` (lines 195-232), with the
wall-clock dependence `datetime.now().year` made explicit as `nowYear`.
An empty frame short-circuits to all zeros; otherwise the four blocks run
in order and any `IndexError` propagates. -/
def calculate_changes (hist : List Row) (current_price : ℚ) (nowYear : Int) :
    Except PyErr ChangeSet :=
  if hist.isEmpty then
    .ok ⟨.finite 0, .finite 0, .finite 0, .finite 0⟩
  else
    match change_24h hist current_price with
    | .error e => .error e
    | .ok a =>
      match change_7d hist current_price with
      | .error e => .error e
      | .ok b =>
        match change_30d hist current_price with
        | .error e => .error e
        | .ok c =>
          match change_ytd hist current_price nowYear with
          | .error e => .error e
          | .ok d => .ok ⟨a, b, c, d⟩

/-- `calculate_ytd_change(price_data, current_price)` (lines 234-252), for
the crypto path.  `price_data` is a list of `(timestampMillis, price)`
pairs; `year_start` stands for `datetime(current_year, 1, 1).timestamp() * 1000`.
The arithmetic here is plain Python float arithmetic: subtracting from a
`None` current price raises `TypeError`, and dividing by a zero anchor
raises `ZeroDivisionError`. -/
def calculate_ytd_change (price_data : List (Int × ℚ)) (current_price : Option ℚ)
    (year_start : Int) : Except PyErr ℚ :=
  if price_data.isEmpty then .ok 0
  else
    match price_data.find? (fun x => year_start ≤ x.1) with
    | none => .ok 0
    | some (_, p) =>
      match current_price with
      | none => .error .typeError
      | some c =>
        if p = 0 then .error .zeroDivisionError
        else .ok ((c - p) / p * 100)

/-- Pandas `Series.tail(12)`: the last `min 12 (length)` elements. -/
def tail12 {α : Type} (l : List α) : List α := l.drop (l.length - 12)

/-- `get_friday_data(hist_data)` (lines 254-275), with
`datetime.now() - timedelta(days=90)` made explicit as `cutoff`.
Filter to the last 90 days, keep Fridays (weekday 4); take the last 12
Friday closes, or the last 12 closes of the window when no Friday exists.
The `except` fallback at lines 273-275 catches runtime exceptions only and
is unreachable in this pure model. -/
def get_friday_data (hist : List Row) (cutoff : Int) : List ℚ :=
  if hist.isEmpty then []
  else
    let recent := hist.filter (fun r => cutoff ≤ r.ts)
    let friday := recent.filter (fun r => r.weekday = 4)
    if friday.isEmpty = false then tail12 (closes friday)
    else tail12 (closes recent)

/-- `get_crypto_friday_data(price_data)` (lines 277-294), with the 90-day
cutoff timestamp explicit.  Iterate `i` over `range(0, len(recent), 7)` and
append `recent[i][1]` while fewer than 12 points are collected. -/
def get_crypto_friday_data (price_data : List (Int × ℚ)) (cutoff : Int) : List ℚ :=
  if price_data.isEmpty then []
  else
    let recent := price_data.filter (fun x => cutoff ≤ x.1)
    (List.range' 0 ((recent.length + 6) / 7) 7).foldl
      (fun fd i => if fd.length < 12 then fd ++ [(recent.getD i (0, 0)).2] else fd) []

/-- Asset kind recorded in the per-ticker result dict (`'type'` key). -/
inductive AssetKind where
  | stock
  | crypto
deriving DecidableEq, Repr

/-- The per-ticker result dict returned by `get_stock_data` /
`get_crypto_data`: ticker, current price (the crypto path can carry a JSON
`null` here, hence `Option`), the change dict, the chart data and the kind. -/
structure TickerData where
  ticker : String
  current_price : Option ℚ
  changes : ChangeSet
  friday_data : List ℚ
  kind : AssetKind
deriving DecidableEq, Repr

/-- The fields of `stock.info` consulted by `get_stock_data` (lines 84-91).
`none` models a key that is absent or whose value is `None`. -/
structure StockInfo where
  currentPrice : Option ℚ
  regularMarketPrice : Option ℚ
  previousClose : Option ℚ
deriving DecidableEq, Repr

/-- The current-price resolution chain of `get_stock_data` (lines 83-91):
`info['currentPrice']`, else `info['regularMarketPrice']`, else
`info['previousClose']`, else `hist['Close'].iloc[-1]`. -/
def resolve_current_price (info : StockInfo) (hist : List Row) : Option ℚ :=
  match info.currentPrice with
  | some p => some p
  | none =>
    match info.regularMarketPrice with
    | some p => some p
    | none =>
      match info.previousClose with
      | some p => some p
      | none => (closes hist).getLast?

/-- The post-fetch normalization of `get_stock_data` (lines 71-113): reject
an empty history, resolve the current price, reject `None` or non-positive
prices, compute changes and chart data.  The surrounding `try`/`except`
(lines 111-113) turns any exception — in particular an `IndexError` from
`calculate_changes` — into `None`. -/
def get_stock_data (symbol : String) (info : StockInfo) (hist : List Row)
    (nowYear : Int) (cutoff : Int) : Option TickerData :=
  if hist.isEmpty then none
  else
    match resolve_current_price info hist with
    | none => none
    | some c =>
      if c ≤ 0 then none
      else
        match calculate_changes hist c nowYear with
        | .error _ => none
        | .ok ch =>
          some { ticker := upper symbol, current_price := some c, changes := ch,
                 friday_data := get_friday_data hist cutoff, kind := .stock }

/-- The post-fetch normalization of `get_crypto_data` (lines 115-193).
`hasCoin` models `coin_id in data` (line 152); `priceField` models
`coin_data[currency]` — `none` is an absent key (`KeyError`, caught by the
outer handler), `some none` a JSON `null` value.  `ch24`/`ch7`/`ch30` are
the provider-supplied change fields read with `.get(..., 0)`; `price_data`
is `hist_data['prices']`.  No positivity check is performed on the price.
The outer `try`/`except` (lines 191-193) turns any exception into `None`. -/
def get_crypto_data (symbol : String) (hasCoin : Bool)
    (priceField : Option (Option ℚ)) (ch24 ch7 ch30 : Option ℚ)
    (price_data : List (Int × ℚ)) (year_start : Int) (cutoff : Int) :
    Option TickerData :=
  if hasCoin = false then none
  else
    match priceField with
    | none => none
    | some current? =>
      match calculate_ytd_change price_data current? year_start with
      | .error _ => none
      | .ok ytd =>
        some { ticker := upper symbol, current_price := current?,
               changes := ⟨.finite (ch24.getD 0), .finite (ch7.getD 0),
                           .finite (ch30.getD 0), .finite ytd⟩,
               friday_data := get_crypto_friday_data price_data cutoff,
               kind := .crypto }

/-- The crypto-ticker-to-CoinGecko-id mapping of `get_crypto_data`
(lines 119-133).  Note that it contains `HBAR`. -/
def crypto_mapping : List (String × String) :=
  [("BTC", "bitcoin"), ("ETH", "ethereum"), ("ADA", "cardano"),
   ("DOT", "polkadot"), ("LINK", "chainlink"), ("LTC", "litecoin"),
   ("XRP", "ripple"), ("DOGE", "dogecoin"), ("SHIB", "shiba-inu"),
   ("MATIC", "matic-network"), ("AVAX", "avalanche-2"), ("SOL", "solana"),
   ("HBAR", "hedera-hashgraph")]

/-- The fixed dispatch list of `display_grid` (line 406). -/
def CRYPTO_TICKERS : List String :=
  ["BTC", "ETH", "ADA", "DOT", "LINK", "LTC", "XRP", "DOGE", "SHIB",
   "MATIC", "AVAX", "SOL"]

/-- Which provider `display_grid` dispatches a ticker to (lines 406-409):
crypto iff the upper-cased symbol is in `CRYPTO_TICKERS`. -/
def dispatch_provider (t : String) : AssetKind :=
  if upper t ∈ CRYPTO_TICKERS then .crypto else .stock

/-- One fetch step of `display_grid`, with the two network fetchers
abstracted as functions returning `none` on any failure (both
`get_stock_data` and `get_crypto_data` catch all their exceptions and
return `None`). -/
def display_grid_fetch (stockFetch cryptoFetch : String → Option TickerData)
    (t : String) : Option TickerData :=
  match dispatch_provider t with
  | .crypto => cryptoFetch t
  | .stock => stockFetch t

/-- The per-ticker collection loop of `display_grid` (lines 404-414): each
ticker is fetched in turn; a successful fetch is appended to `data_list`, a
failed one is reported (modelled by collecting the failed symbol). -/
def display_grid_collect (fetch : String → Option TickerData)
    (tickers : List String) : List TickerData × List String :=
  tickers.foldl
    (fun acc t =>
      match fetch t with
      | some d => (acc.1 ++ [d], acc.2)
      | none => (acc.1, acc.2 ++ [t]))
    ([], [])

/-- `display_grid`'s fetch phase: dispatch each ticker and collect
successes and failures. -/
def display_grid (stockFetch cryptoFetch : String → Option TickerData)
    (tickers : List String) : List TickerData × List String :=
  display_grid_collect (display_grid_fetch stockFetch cryptoFetch) tickers

/-- A synthetic daily history frame used as concrete input in witnesses and
counterexamples: `n` rows, all in year 2025, timestamps `0, …, n-1`,
weekdays cycling `0..6`, close prices `1, 2, …, n`. -/
def sampleHist (n : Nat) : List Row :=
  (List.range n).map
    (fun i => { ts := Int.ofNat i, year := 2025, weekday := i % 7, close := (i : ℚ) + 1 })

/-- A synthetic crypto price list: `n` daily `(timestamp, price)` pairs with
timestamps `0, …, n-1` and prices `1, …, n`. -/
def samplePrices (n : Nat) : List (Int × ℚ) :=
  (List.range n).map (fun i => (Int.ofNat i, (i : ℚ) + 1))

/-- A concrete 31-row history with literal closes `1, …, 31`, all rows in
year 2025 (used to discharge hypotheses in witnesses). -/
def histW31 : List Row :=
  [⟨0, 2025, 0, 1⟩,
   ⟨1, 2025, 1, 2⟩,
   ⟨2, 2025, 2, 3⟩,
   ⟨3, 2025, 3, 4⟩,
   ⟨4, 2025, 4, 5⟩,
   ⟨5, 2025, 5, 6⟩,
   ⟨6, 2025, 6, 7⟩,
   ⟨7, 2025, 0, 8⟩,
   ⟨8, 2025, 1, 9⟩,
   ⟨9, 2025, 2, 10⟩,
   ⟨10, 2025, 3, 11⟩,
   ⟨11, 2025, 4, 12⟩,
   ⟨12, 2025, 5, 13⟩,
   ⟨13, 2025, 6, 14⟩,
   ⟨14, 2025, 0, 15⟩,
   ⟨15, 2025, 1, 16⟩,
   ⟨16, 2025, 2, 17⟩,
   ⟨17, 2025, 3, 18⟩,
   ⟨18, 2025, 4, 19⟩,
   ⟨19, 2025, 5, 20⟩,
   ⟨20, 2025, 6, 21⟩,
   ⟨21, 2025, 0, 22⟩,
   ⟨22, 2025, 1, 23⟩,
   ⟨23, 2025, 2, 24⟩,
   ⟨24, 2025, 3, 25⟩,
   ⟨25, 2025, 4, 26⟩,
   ⟨26, 2025, 5, 27⟩,
   ⟨27, 2025, 6, 28⟩,
   ⟨28, 2025, 0, 29⟩,
   ⟨29, 2025, 1, 30⟩,
   ⟨30, 2025, 2, 31⟩]

/-- A concrete 2-row history entirely in year 2024 (used for the
YTD-fallback witness with `nowYear = 2025`). -/
def histW2 : List Row := [⟨0, 2024, 3, 4⟩, ⟨1, 2024, 4, 5⟩]

/-- A 2-row history whose 24h/YTD anchor close is exactly `0`. -/
def histZeroAnchor : List Row := [⟨0, 2025, 0, 0⟩, ⟨1, 2025, 1, 5⟩]

end StockCryptoTui

namespace StockCryptoTui

/-! ### Helper lemmas about the embedded primitives -/

theorem iloc_neg_ok (xs : List ℚ) (i : Int) (hi : i < 0)
    (hk : 0 ≤ (xs.length : Int) + i) :
    iloc xs i = .ok (xs.getD ((xs.length : Int) + i).toNat 0) := by
  have hlt : ((xs.length : Int) + i).toNat < xs.length := by omega
  simp only [iloc, if_pos hi, if_neg (not_lt.mpr hk)]
  rw [List.get?_eq_get hlt, List.getD_eq_getElem _ _ hlt]
  rfl

theorem iloc_zero_ok (xs : List ℚ) (h : xs ≠ []) :
    iloc xs 0 = .ok (xs.getD 0 0) := by
  have hlt : 0 < xs.length := List.length_pos.mpr h
  simp only [iloc, if_neg (by omega : ¬ (0 : Int) < 0)]
  norm_num
  rw [List.getElem?_eq_getElem hlt]
  rfl

theorem iloc_ok_mem {xs : List ℚ} {i : Int} {v : ℚ} (h : iloc xs i = .ok v) :
    v ∈ xs := by
  simp only [iloc] at h
  repeat' split at h
  all_goals cases h
  all_goals exact List.get?_mem (by assumption)

theorem closes_ne_nil {hist : List Row} (h : hist ≠ []) : closes hist ≠ [] := by
  simpa [closes] using h

theorem change_24h_eq (hist : List Row) (c : ℚ) (h : 2 ≤ hist.length) :
    change_24h hist c =
      .ok (pyMul100 (npDiv (c - (closes hist).getD (hist.length - 2) 0)
        ((closes hist).getD (hist.length - 2) 0))) := by
  have hlen : (closes hist).length = hist.length := List.length_map _ _
  have hidx : (((closes hist).length : Int) + (-2)).toNat = hist.length - 2 := by omega
  unfold change_24h
  rw [if_pos h, iloc_neg_ok _ _ (by omega) (by omega), hidx]
  rfl

theorem change_7d_eq (hist : List Row) (c : ℚ) (h : 8 ≤ hist.length) :
    change_7d hist c =
      .ok (pyMul100 (npDiv (c - (closes hist).getD (hist.length - 8) 0)
        ((closes hist).getD (hist.length - 8) 0))) := by
  have hlen : (closes hist).length = hist.length := List.length_map _ _
  have hidx : (((closes hist).length : Int) + (-8)).toNat = hist.length - 8 := by omega
  unfold change_7d
  rw [if_pos (by omega), iloc_neg_ok _ _ (by omega) (by omega), hidx]
  rfl

theorem change_30d_eq (hist : List Row) (c : ℚ) (h : 31 ≤ hist.length) :
    change_30d hist c =
      .ok (pyMul100 (npDiv (c - (closes hist).getD (hist.length - 31) 0)
        ((closes hist).getD (hist.length - 31) 0))) := by
  have hlen : (closes hist).length = hist.length := List.length_map _ _
  have hidx : (((closes hist).length : Int) + (-31)).toNat = hist.length - 31 := by omega
  unfold change_30d
  rw [if_pos (by omega), iloc_neg_ok _ _ (by omega) (by omega), hidx]
  rfl

theorem change_7d_err (hist : List Row) (c : ℚ) (h : hist.length = 7) :
    change_7d hist c = .error .indexError := by
  have hlen : (closes hist).length = hist.length := List.length_map _ _
  unfold change_7d
  rw [if_pos (by omega)]
  simp only [iloc, if_pos (by omega : (-8 : Int) < 0),
    if_pos (by omega : ((closes hist).length : Int) + (-8) < 0)]
  rfl

theorem change_30d_err (hist : List Row) (c : ℚ) (h : hist.length = 30) :
    change_30d hist c = .error .indexError := by
  have hlen : (closes hist).length = hist.length := List.length_map _ _
  unfold change_30d
  rw [if_pos (by omega)]
  simp only [iloc, if_pos (by omega : (-31 : Int) < 0),
    if_pos (by omega : ((closes hist).length : Int) + (-31) < 0)]
  rfl

theorem change_24h_zero (hist : List Row) (c : ℚ) (h : hist.length < 2) :
    change_24h hist c = .ok (.finite 0) := by
  unfold change_24h
  rw [if_neg (by omega)]

theorem change_7d_zero (hist : List Row) (c : ℚ) (h : hist.length < 7) :
    change_7d hist c = .ok (.finite 0) := by
  unfold change_7d
  rw [if_neg (by omega)]

theorem change_30d_zero (hist : List Row) (c : ℚ) (h : hist.length < 30) :
    change_30d hist c = .ok (.finite 0) := by
  unfold change_30d
  rw [if_neg (by omega)]

theorem change_ytd_eq_nonempty (hist : List Row) (c : ℚ) (ny : Int)
    (h : hist.filter (fun r => r.year = ny) ≠ []) :
    change_ytd hist c ny =
      .ok (pyMul100 (npDiv
        (c - (closes (hist.filter (fun r => r.year = ny))).getD 0 0)
        ((closes (hist.filter (fun r => r.year = ny))).getD 0 0))) := by
  unfold change_ytd
  rw [if_pos (by simpa using h), iloc_zero_ok _ (closes_ne_nil h)]
  rfl

theorem change_ytd_eq_empty (hist : List Row) (c : ℚ) (ny : Int)
    (h1 : hist.filter (fun r => r.year = ny) = []) (h2 : hist ≠ []) :
    change_ytd hist c ny =
      .ok (pyMul100 (npDiv (c - (closes hist).getD 0 0) ((closes hist).getD 0 0))) := by
  unfold change_ytd
  rw [if_neg (by simp [h1]), if_pos (by simpa using h2), iloc_zero_ok _ (closes_ne_nil h2)]
  rfl

theorem change_ytd_always_ok (hist : List Row) (c : ℚ) (ny : Int) :
    ∃ v, change_ytd hist c ny = .ok v := by
  by_cases h1 : hist.filter (fun r => r.year = ny) = []
  · by_cases h2 : hist = []
    · subst h2
      exact ⟨.finite 0, by unfold change_ytd; rw [if_neg (by simp), if_neg (by simp)]⟩
    · exact ⟨_, change_ytd_eq_empty hist c ny h1 h2⟩
  · exact ⟨_, change_ytd_eq_nonempty hist c ny h1⟩

theorem calculate_changes_ok_parts {hist : List Row} {c : ℚ} {ny : Int}
    {r : ChangeSet} (hne : hist ≠ [])
    (h : calculate_changes hist c ny = .ok r) :
    change_24h hist c = .ok r.h24 ∧ change_7d hist c = .ok r.d7 ∧
      change_30d hist c = .ok r.d30 ∧ change_ytd hist c ny = .ok r.ytd := by
  unfold calculate_changes at h
  rw [if_neg (by simpa using hne)] at h
  cases h1 : change_24h hist c with
  | error e => rw [h1] at h; cases h
  | ok a =>
    rw [h1] at h
    cases h2 : change_7d hist c with
    | error e => rw [h2] at h; cases h
    | ok b =>
      rw [h2] at h
      cases h3 : change_30d hist c with
      | error e => rw [h3] at h; cases h
      | ok c30 =>
        rw [h3] at h
        cases h4 : change_ytd hist c ny with
        | error e => rw [h4] at h; cases h
        | ok d =>
          rw [h4] at h
          cases h
          exact ⟨rfl, rfl, rfl, rfl⟩

theorem calculate_changes_mk {hist : List Row} {c : ℚ} {ny : Int}
    {a b c30 d : PyFloat} (hne : hist ≠ [])
    (h1 : change_24h hist c = .ok a) (h2 : change_7d hist c = .ok b)
    (h3 : change_30d hist c = .ok c30) (h4 : change_ytd hist c ny = .ok d) :
    calculate_changes hist c ny = .ok ⟨a, b, c30, d⟩ := by
  unfold calculate_changes
  rw [if_neg (by simpa using hne), h1, h2, h3, h4]

theorem pyMul100_npDiv_eq {x a : ℚ} (h : a ≠ 0) :
    pyMul100 (npDiv x a) = .finite (x / a * 100) := by
  simp [npDiv, pyMul100, h]

/-! ### Claim theorems -/

/-- C1: for every price series and current price, the 24h change of
`calculate_changes` is anchored at `series[len-2]` when at least two points
exist and is `0` when fewer than two exist, and for every period whose
documented anchor (`series[len-2]`, `series[len-8]`, `series[len-31]`, the
first current-year point with fallback `series[0]`) is nonzero, the
returned change is exactly `(current - anchor) / anchor * 100`. -/
theorem calculate_changes_anchor_spec (hist : List Row) (c : ℚ) (ny : Int) :
    (hist.length < 2 →
      ∃ r, calculate_changes hist c ny = .ok r ∧ r.h24 = .finite 0) ∧
    (∀ r, calculate_changes hist c ny = .ok r → 2 ≤ hist.length →
      (closes hist).getD (hist.length - 2) 0 ≠ 0 →
      r.h24 = .finite ((c - (closes hist).getD (hist.length - 2) 0) /
        (closes hist).getD (hist.length - 2) 0 * 100)) ∧
    (∀ r, calculate_changes hist c ny = .ok r → 7 ≤ hist.length →
      (closes hist).getD (hist.length - 8) 0 ≠ 0 →
      r.d7 = .finite ((c - (closes hist).getD (hist.length - 8) 0) /
        (closes hist).getD (hist.length - 8) 0 * 100)) ∧
    (∀ r, calculate_changes hist c ny = .ok r → 30 ≤ hist.length →
      (closes hist).getD (hist.length - 31) 0 ≠ 0 →
      r.d30 = .finite ((c - (closes hist).getD (hist.length - 31) 0) /
        (closes hist).getD (hist.length - 31) 0 * 100)) ∧
    (∀ r, calculate_changes hist c ny = .ok r →
      hist.filter (fun row => row.year = ny) ≠ [] →
      (closes (hist.filter (fun row => row.year = ny))).getD 0 0 ≠ 0 →
      r.ytd = .finite
        ((c - (closes (hist.filter (fun row => row.year = ny))).getD 0 0) /
          (closes (hist.filter (fun row => row.year = ny))).getD 0 0 * 100)) ∧
    (∀ r, calculate_changes hist c ny = .ok r →
      hist.filter (fun row => row.year = ny) = [] → hist ≠ [] →
      (closes hist).getD 0 0 ≠ 0 →
      r.ytd = .finite ((c - (closes hist).getD 0 0) /
        (closes hist).getD 0 0 * 100)) := by
  have hne_of_len : ∀ {n : Nat}, 1 ≤ n → n ≤ hist.length → hist ≠ [] := by
    intro n h1 h2 hnil
    rw [hnil] at h2
    simp at h2
    omega
  refine ⟨?_, ?_, ?_, ?_, ?_, ?_⟩
  · intro h
    match hist, h with
    | [], _ => exact ⟨⟨.finite 0, .finite 0, .finite 0, .finite 0⟩, rfl, rfl⟩
    | [x], _ =>
      obtain ⟨v, hv⟩ := change_ytd_always_ok [x] c ny
      exact ⟨⟨.finite 0, .finite 0, .finite 0, v⟩,
        calculate_changes_mk (by simp)
          (change_24h_zero _ _ (by simp)) (change_7d_zero _ _ (by simp))
          (change_30d_zero _ _ (by simp)) hv, rfl⟩
  · intro r hr hlen ha
    obtain ⟨h1, -, -, -⟩ := calculate_changes_ok_parts (hne_of_len (by omega) hlen) hr
    rw [change_24h_eq hist c hlen, pyMul100_npDiv_eq ha] at h1
    exact (Except.ok.inj h1).symm
  · intro r hr hlen ha
    obtain ⟨-, h2, -, -⟩ := calculate_changes_ok_parts (hne_of_len (by omega) hlen) hr
    by_cases h7 : hist.length = 7
    · rw [change_7d_err hist c h7] at h2
      cases h2
    · rw [change_7d_eq hist c (by omega), pyMul100_npDiv_eq ha] at h2
      exact (Except.ok.inj h2).symm
  · intro r hr hlen ha
    obtain ⟨-, -, h3, -⟩ := calculate_changes_ok_parts (hne_of_len (by omega) hlen) hr
    by_cases h30 : hist.length = 30
    · rw [change_30d_err hist c h30] at h3
      cases h3
    · rw [change_30d_eq hist c (by omega), pyMul100_npDiv_eq ha] at h3
      exact (Except.ok.inj h3).symm
  · intro r hr hfil ha
    have hne : hist ≠ [] := by
      intro hnil
      rw [hnil] at hfil
      simp at hfil
    obtain ⟨-, -, -, h4⟩ := calculate_changes_ok_parts hne hr
    rw [change_ytd_eq_nonempty hist c ny hfil, pyMul100_npDiv_eq ha] at h4
    exact (Except.ok.inj h4).symm
  · intro r hr hfil hne ha
    obtain ⟨-, -, -, h4⟩ := calculate_changes_ok_parts hne hr
    rw [change_ytd_eq_empty hist c ny hfil hne, pyMul100_npDiv_eq ha] at h4
    exact (Except.ok.inj h4).symm

/-- Witness for C1: concrete instantiations at a 1-point series, the
31-point literal series `histW31` and the prior-year series `histW2`,
discharging each hypothesis. -/
theorem calculate_changes_anchor_spec_witness :
    (calculate_changes (sampleHist 1) 10 2025).isOk = true ∧
    (calculate_changes histW31 10 2025).map (fun r => r.h24)
      = .ok (.finite ((10 - (closes histW31).getD (histW31.length - 2) 0) /
          (closes histW31).getD (histW31.length - 2) 0 * 100)) ∧
    (calculate_changes histW31 10 2025).map (fun r => r.d7)
      = .ok (.finite ((10 - (closes histW31).getD (histW31.length - 8) 0) /
          (closes histW31).getD (histW31.length - 8) 0 * 100)) ∧
    (calculate_changes histW31 10 2025).map (fun r => r.d30)
      = .ok (.finite ((10 - (closes histW31).getD (histW31.length - 31) 0) /
          (closes histW31).getD (histW31.length - 31) 0 * 100)) ∧
    (calculate_changes histW31 10 2025).map (fun r => r.ytd)
      = .ok (.finite
          ((10 - (closes (histW31.filter (fun row => row.year = 2025))).getD 0 0) /
            (closes (histW31.filter (fun row => row.year = 2025))).getD 0 0 * 100)) ∧
    (calculate_changes histW2 10 2025).map (fun r => r.ytd)
      = .ok (.finite ((10 - (closes histW2).getD 0 0) /
          (closes histW2).getD 0 0 * 100)) := by
  obtain ⟨r0, hr0, -⟩ :=
    (calculate_changes_anchor_spec (sampleHist 1) 10 2025).1 (by decide)
  have h1 := change_24h_eq histW31 10 (by decide)
  have h2 := change_7d_eq histW31 10 (by decide)
  have h3 := change_30d_eq histW31 10 (by decide)
  have h4 := change_ytd_eq_nonempty histW31 10 2025 (by decide)
  have hr := calculate_changes_mk (by decide) h1 h2 h3 h4
  have g1 := change_24h_eq histW2 10 (by decide)
  have g2 := change_7d_zero histW2 10 (by decide)
  have g3 := change_30d_zero histW2 10 (by decide)
  have g4 := change_ytd_eq_empty histW2 10 2025 (by decide) (by decide)
  have hr2 := calculate_changes_mk (by decide) g1 g2 g3 g4
  refine ⟨by rw [hr0]; rfl, ?_, ?_, ?_, ?_, ?_⟩
  · rw [hr]
    exact congrArg Except.ok
      ((calculate_changes_anchor_spec histW31 10 2025).2.1 _ hr (by decide) (by decide))
  · rw [hr]
    exact congrArg Except.ok
      ((calculate_changes_anchor_spec histW31 10 2025).2.2.1 _ hr (by decide) (by decide))
  · rw [hr]
    exact congrArg Except.ok
      ((calculate_changes_anchor_spec histW31 10 2025).2.2.2.1 _ hr (by decide) (by decide))
  · rw [hr]
    exact congrArg Except.ok
      ((calculate_changes_anchor_spec histW31 10 2025).2.2.2.2.1 _ hr (by decide) (by decide))
  · rw [hr2]
    exact congrArg Except.ok
      ((calculate_changes_anchor_spec histW2 10 2025).2.2.2.2.2 _ hr2 (by decide) (by decide)
        (by decide))

/-- C2: the claim says `calculate_changes` raises no exception and in
particular returns normally for a series of exactly 7 and of exactly 30
points; the code instead raises `IndexError` there (`len >= 7` guards an
`iloc[-8]` access that needs 8 points; `len >= 30` guards `iloc[-31]`,
which needs 31). -/
theorem calculate_changes_indexError_at_7_and_30 :
    (sampleHist 7).length = 7 ∧
    calculate_changes (sampleHist 7) 10 2025 = .error .indexError ∧
    (sampleHist 30).length = 30 ∧
    calculate_changes (sampleHist 30) 10 2025 = .error .indexError := by
  decide

theorem anchor_mem {l : List Row} {k : Nat} (h : k < l.length) :
    (closes l).getD k 0 ∈ closes l := by
  have hlen : (closes l).length = l.length := List.length_map _ _
  rw [List.getD_eq_getElem _ _ (by omega)]
  exact List.getElem_mem _

theorem nonzero_anchor {l : List Row} (hnz : ∀ row ∈ l, row.close ≠ 0)
    {k : Nat} (h : k < l.length) : (closes l).getD k 0 ≠ 0 := by
  obtain ⟨row, hrow, hra⟩ := List.mem_map.mp (anchor_mem h)
  rw [← hra]
  exact hnz row hrow

/-- C3 counterexample: with a zero anchor `calculate_changes` does not
return 0 for the affected period — the 24h and YTD changes come out as
`inf` (a non-finite value) — and the crypto YTD helper raises
`ZeroDivisionError` on a zero anchor. -/
theorem zero_anchor_counterexample :
    calculate_changes histZeroAnchor 10 2025
      = .ok ⟨.inf, .finite 0, .finite 0, .inf⟩ ∧
    (closes histZeroAnchor).getD (histZeroAnchor.length - 2) 0 = 0 ∧
    PyFloat.inf ≠ .finite 0 ∧ PyFloat.inf.isFinite = false ∧
    calculate_ytd_change [((5 : Int), (0 : ℚ))] (some 10) 0
      = .error .zeroDivisionError := by
  have hdiv : pyMul100 (npDiv ((10 : ℚ) - 0) 0) = .inf := by
    norm_num [npDiv, pyMul100]
  have h1 := change_24h_eq histZeroAnchor 10 (by decide)
  rw [(by rfl : (closes histZeroAnchor).getD (histZeroAnchor.length - 2) 0 = (0 : ℚ)),
    hdiv] at h1
  have h4 := change_ytd_eq_nonempty histZeroAnchor 10 2025 (by decide)
  rw [(by rfl :
      (closes (histZeroAnchor.filter (fun row => row.year = 2025))).getD 0 0 = (0 : ℚ)),
    hdiv] at h4
  refine ⟨?_, rfl, by decide, rfl, by decide⟩
  exact calculate_changes_mk (by decide) h1
    (change_7d_zero _ _ (by decide)) (change_30d_zero _ _ (by decide)) h4

/-- C3 (amended): the code has no zero-anchor guard.  When every close in
the series is nonzero, every value in the returned ChangeSet is finite; a
zero anchor instead yields a non-finite float (`inf`/`-inf`/`nan`) in
`calculate_changes`, and the crypto YTD helper raises `ZeroDivisionError`
on a zero anchor. -/
theorem changes_finite_of_nonzero_closes :
    (∀ (hist : List Row) (c : ℚ) (ny : Int) (r : ChangeSet),
      (∀ row ∈ hist, row.close ≠ 0) →
      calculate_changes hist c ny = .ok r →
      r.h24.isFinite = true ∧ r.d7.isFinite = true ∧
        r.d30.isFinite = true ∧ r.ytd.isFinite = true) ∧
    (∀ (pd : List (Int × ℚ)) (c : ℚ) (ys : Int) (t : Int) (p : ℚ),
      pd.find? (fun x => ys ≤ x.1) = some (t, p) → p = 0 →
      calculate_ytd_change pd (some c) ys = .error .zeroDivisionError) := by
  constructor
  · intro hist c ny r hnz hok
    by_cases hhist : hist = []
    · subst hhist
      have : r = ⟨.finite 0, .finite 0, .finite 0, .finite 0⟩ := by
        have : Except.ok (ε := PyErr) (⟨.finite 0, .finite 0, .finite 0, .finite 0⟩ : ChangeSet) = .ok r := hok
        exact (Except.ok.inj this).symm
      subst this
      exact ⟨rfl, rfl, rfl, rfl⟩
    · obtain ⟨h1, h2, h3, h4⟩ := calculate_changes_ok_parts hhist hok
      have hlen0 : 0 < hist.length := List.length_pos.mpr hhist
      refine ⟨?_, ?_, ?_, ?_⟩
      · rcases lt_or_le hist.length 2 with hl | hl
        · rw [change_24h_zero _ _ hl] at h1
          rw [← Except.ok.inj h1]
          rfl
        · rw [change_24h_eq hist c hl,
            pyMul100_npDiv_eq (nonzero_anchor hnz (by omega))] at h1
          rw [← Except.ok.inj h1]
          rfl
      · rcases lt_or_le hist.length 7 with hl | hl
        · rw [change_7d_zero _ _ hl] at h2
          rw [← Except.ok.inj h2]
          rfl
        · by_cases h7 : hist.length = 7
          · rw [change_7d_err hist c h7] at h2
            cases h2
          · rw [change_7d_eq hist c (by omega),
              pyMul100_npDiv_eq (nonzero_anchor hnz (by omega))] at h2
            rw [← Except.ok.inj h2]
            rfl
      · rcases lt_or_le hist.length 30 with hl | hl
        · rw [change_30d_zero _ _ hl] at h3
          rw [← Except.ok.inj h3]
          rfl
        · by_cases h30 : hist.length = 30
          · rw [change_30d_err hist c h30] at h3
            cases h3
          · rw [change_30d_eq hist c (by omega),
              pyMul100_npDiv_eq (nonzero_anchor hnz (by omega))] at h3
            rw [← Except.ok.inj h3]
            rfl
      · by_cases hfil : hist.filter (fun row => row.year = ny) = []
        · rw [change_ytd_eq_empty hist c ny hfil hhist,
            pyMul100_npDiv_eq (nonzero_anchor hnz (by omega))] at h4
          rw [← Except.ok.inj h4]
          rfl
        · have hnz' : ∀ row ∈ hist.filter (fun row => row.year = ny), row.close ≠ 0 :=
            fun row hr => hnz row (List.mem_of_mem_filter hr)
          have hpos : 0 < (hist.filter (fun row => row.year = ny)).length :=
            List.length_pos.mpr hfil
          rw [change_ytd_eq_nonempty hist c ny hfil,
            pyMul100_npDiv_eq (nonzero_anchor hnz' hpos)] at h4
          rw [← Except.ok.inj h4]
          rfl
  · intro pd c ys t p hfind hp
    have hpd : pd ≠ [] := by
      intro h
      subst h
      simp at hfind
    unfold calculate_ytd_change
    rw [if_neg (by simpa using hpd), hfind]
    simp [hp]

/-- Witness for C3 (amended): at the literal 31-point series all returned
values are finite, and the concrete zero-anchor crypto input raises
`ZeroDivisionError`. -/
theorem changes_finite_of_nonzero_closes_witness :
    ((calculate_changes histW31 10 2025).map
        (fun r => r.h24.isFinite && r.d7.isFinite && r.d30.isFinite && r.ytd.isFinite))
      = .ok true ∧
    calculate_ytd_change [((5 : Int), (0 : ℚ))] (some 10) 0
      = .error .zeroDivisionError := by
  have h1 := change_24h_eq histW31 10 (by decide)
  have h2 := change_7d_eq histW31 10 (by decide)
  have h3 := change_30d_eq histW31 10 (by decide)
  have h4 := change_ytd_eq_nonempty histW31 10 2025 (by decide)
  have hr := calculate_changes_mk (by decide) h1 h2 h3 h4
  obtain ⟨f1, f2, f3, f4⟩ :=
    changes_finite_of_nonzero_closes.1 histW31 10 2025 _ (by decide) hr
  refine ⟨?_, ?_⟩
  · rw [hr]
    simp only [Except.map]
    rw [f1, f2, f3, f4]
    rfl
  · exact changes_finite_of_nonzero_closes.2 [((5 : Int), (0 : ℚ))] 10 0 5 0
      (by decide) (by decide)

/-- C4 counterexample: on the crypto path a series with no current-year
point yields YTD change 0, not the claimed fallback to the earliest point
of the whole series (`series[0].price = 5`, which would give
`(10-5)/5*100 = 100`). -/
theorem crypto_ytd_no_fallback_counterexample :
    calculate_ytd_change [((0 : Int), (5 : ℚ))] (some 10) 1000 = .ok 0 ∧
    (10 - 5 : ℚ) / 5 * 100 = 100 ∧ (0 : ℚ) ≠ 100 := by
  refine ⟨by decide, by norm_num, by norm_num⟩

/-- C4 (amended): the equity path selects the YTD anchor as the first
current-year row, falling back to the first row for a nonempty series with
no current-year row (and 0 for an empty one); the crypto path anchors at
the first point with timestamp at/after Jan 1 of the current year and
returns 0 — with no fallback to `series[0]` — when no such point exists. -/
theorem ytd_anchor_selection :
    (∀ (hist : List Row) (c : ℚ) (ny : Int) (r : ChangeSet),
      calculate_changes hist c ny = .ok r →
      (hist.filter (fun row => row.year = ny) ≠ [] →
        r.ytd = pyMul100 (npDiv
          (c - (closes (hist.filter (fun row => row.year = ny))).getD 0 0)
          ((closes (hist.filter (fun row => row.year = ny))).getD 0 0))) ∧
      (hist.filter (fun row => row.year = ny) = [] → hist ≠ [] →
        r.ytd = pyMul100 (npDiv (c - (closes hist).getD 0 0)
          ((closes hist).getD 0 0)))) ∧
    (∀ (c : ℚ) (ny : Int) (r : ChangeSet),
      calculate_changes [] c ny = .ok r → r.ytd = .finite 0) ∧
    (∀ (pd : List (Int × ℚ)) (c : ℚ) (ys : Int),
      pd.find? (fun x => ys ≤ x.1) = none →
      calculate_ytd_change pd (some c) ys = .ok 0) ∧
    (∀ (pd : List (Int × ℚ)) (c : ℚ) (ys : Int) (t : Int) (p : ℚ),
      pd.find? (fun x => ys ≤ x.1) = some (t, p) → p ≠ 0 →
      calculate_ytd_change pd (some c) ys = .ok ((c - p) / p * 100)) := by
  refine ⟨?_, ?_, ?_, ?_⟩
  · intro hist c ny r hok
    constructor
    · intro hfil
      have hne : hist ≠ [] := by
        intro h
        subst h
        simp at hfil
      obtain ⟨-, -, -, h4⟩ := calculate_changes_ok_parts hne hok
      rw [change_ytd_eq_nonempty hist c ny hfil] at h4
      exact (Except.ok.inj h4).symm
    · intro hfil hne
      obtain ⟨-, -, -, h4⟩ := calculate_changes_ok_parts hne hok
      rw [change_ytd_eq_empty hist c ny hfil hne] at h4
      exact (Except.ok.inj h4).symm
  · intro c ny r hok
    have : Except.ok (ε := PyErr) (⟨.finite 0, .finite 0, .finite 0, .finite 0⟩ : ChangeSet) = .ok r := hok
    rw [← Except.ok.inj this]
  · intro pd c ys hfind
    unfold calculate_ytd_change
    by_cases hpd : pd.isEmpty
    · rw [if_pos hpd]
    · rw [if_neg hpd, hfind]
  · intro pd c ys t p hfind hp
    have hpd : pd ≠ [] := by
      intro h
      subst h
      simp at hfind
    unfold calculate_ytd_change
    rw [if_neg (by simpa using hpd), hfind]
    simp [hp]

/-- Witness for C4 (amended): concrete instantiations exercising the
current-year branch, the equity fallback branch, the empty-series branch
and both crypto branches. -/
theorem ytd_anchor_selection_witness :
    (calculate_changes histW31 10 2025).map (fun r => r.ytd)
      = .ok (pyMul100 (npDiv
          (10 - (closes (histW31.filter (fun row => row.year = 2025))).getD 0 0)
          ((closes (histW31.filter (fun row => row.year = 2025))).getD 0 0))) ∧
    (calculate_changes histW2 10 2025).map (fun r => r.ytd)
      = .ok (pyMul100 (npDiv (10 - (closes histW2).getD 0 0)
          ((closes histW2).getD 0 0))) ∧
    (ChangeSet.mk (.finite 0) (.finite 0) (.finite 0) (.finite 0)).ytd = .finite 0 ∧
    calculate_ytd_change [((0 : Int), (5 : ℚ))] (some 10) 1000 = .ok 0 ∧
    calculate_ytd_change [((5 : Int), (5 : ℚ))] (some 10) 0
      = .ok ((10 - 5) / 5 * 100) := by
  have h1 := change_24h_eq histW31 10 (by decide)
  have h2 := change_7d_eq histW31 10 (by decide)
  have h3 := change_30d_eq histW31 10 (by decide)
  have h4 := change_ytd_eq_nonempty histW31 10 2025 (by decide)
  have hr := calculate_changes_mk (by decide) h1 h2 h3 h4
  have g1 := change_24h_eq histW2 10 (by decide)
  have g2 := change_7d_zero histW2 10 (by decide)
  have g3 := change_30d_zero histW2 10 (by decide)
  have g4 := change_ytd_eq_empty histW2 10 2025 (by decide) (by decide)
  have hr2 := calculate_changes_mk (by decide) g1 g2 g3 g4
  refine ⟨?_, ?_, ?_, ?_, ?_⟩
  · rw [hr]
    exact congrArg Except.ok
      (((ytd_anchor_selection.1 histW31 10 2025 _ hr).1) (by decide))
  · rw [hr2]
    exact congrArg Except.ok
      (((ytd_anchor_selection.1 histW2 10 2025 _ hr2).2) (by decide) (by decide))
  · exact ytd_anchor_selection.2.1 10 2025 ⟨.finite 0, .finite 0, .finite 0, .finite 0⟩ rfl
  · exact ytd_anchor_selection.2.2.1 [((0 : Int), (5 : ℚ))] 10 1000 (by decide)
  · exact ytd_anchor_selection.2.2.2 [((5 : Int), (5 : ℚ))] 10 0 5 5 (by decide) (by decide)

/-- C5 counterexample: the crypto path performs no positivity check — a
current price of 0 (with a current-year history point) still produces a
snapshot instead of being rejected. -/
theorem get_crypto_data_accepts_zero_price :
    (get_crypto_data "btc" true (some (some 0)) none none none
        [((5 : Int), (5 : ℚ))] 0 0).isSome = true := by
  decide

/-- C5 (amended): the stock path rejects a missing or non-positive resolved
current price; the crypto path does not validate the price — a zero
current price still produces a snapshot — and a `null` crypto price is
rejected only through the `TypeError` it causes in the YTD computation
when a point at/after Jan 1 exists. -/
theorem normalizer_price_validation :
    (∀ (sym : String) (info : StockInfo) (hist : List Row) (ny cutoff : Int),
      resolve_current_price info hist = none →
      get_stock_data sym info hist ny cutoff = none) ∧
    (∀ (sym : String) (info : StockInfo) (hist : List Row) (ny cutoff : Int) (p : ℚ),
      resolve_current_price info hist = some p → p ≤ 0 →
      get_stock_data sym info hist ny cutoff = none) ∧
    (∀ (sym : String) (ch24 ch7 ch30 : Option ℚ) (pd : List (Int × ℚ))
        (ys cutoff : Int) (t : Int) (p : ℚ),
      pd.find? (fun x => ys ≤ x.1) = some (t, p) →
      get_crypto_data sym true (some none) ch24 ch7 ch30 pd ys cutoff = none) ∧
    (get_crypto_data "btc" true (some (some 0)) none none none
        [((5 : Int), (5 : ℚ))] 0 0).isSome = true := by
  refine ⟨?_, ?_, ?_, by decide⟩
  · intro sym info hist ny cutoff hres
    unfold get_stock_data
    by_cases hh : hist.isEmpty
    · rw [if_pos hh]
    · rw [if_neg hh, hres]
  · intro sym info hist ny cutoff p hres hp
    unfold get_stock_data
    by_cases hh : hist.isEmpty
    · rw [if_pos hh]
    · rw [if_neg hh, hres]
      simp [hp]
  · intro sym ch24 ch7 ch30 pd ys cutoff t p hfind
    have hpd : pd ≠ [] := by
      intro h
      subst h
      simp at hfind
    unfold get_crypto_data
    have hytd : calculate_ytd_change pd none ys = .error .typeError := by
      unfold calculate_ytd_change
      rw [if_neg (by simpa using hpd), hfind]
    simp [hytd]

/-- Witness for C5 (amended): concrete rejections on the stock path (no
resolvable price; a negative resolved price) and a concrete `TypeError`
rejection of a `null` crypto price. -/
theorem normalizer_price_validation_witness :
    get_stock_data "aapl" ⟨none, none, none⟩ [] 2025 0 = none ∧
    get_stock_data "aapl" ⟨some (-5), none, none⟩ histW2 2025 0 = none ∧
    get_crypto_data "eth" true (some none) none none none
      [((5 : Int), (5 : ℚ))] 0 0 = none := by
  refine ⟨?_, ?_, ?_⟩
  · exact normalizer_price_validation.1 "aapl" ⟨none, none, none⟩ [] 2025 0 (by decide)
  · exact normalizer_price_validation.2.1 "aapl" ⟨some (-5), none, none⟩ histW2 2025 0 (-5)
      (by decide) (by norm_num)
  · exact normalizer_price_validation.2.2.1 "eth" none none none
      [((5 : Int), (5 : ℚ))] 0 0 5 5 (by decide)

/-! ### Sampler lemmas -/

theorem tail12_sublist {α : Type} (l : List α) : (tail12 l).Sublist l :=
  List.drop_sublist _ _

theorem tail12_length_le {α : Type} (l : List α) : (tail12 l).length ≤ 12 := by
  unfold tail12
  rw [List.length_drop]
  omega

theorem tail12_length_le_self {α : Type} (l : List α) : (tail12 l).length ≤ l.length := by
  unfold tail12
  rw [List.length_drop]
  omega

theorem stride_foldl_full (recent : List (Int × ℚ)) (idxs : List Nat)
    (acc : List ℚ) (h : 12 ≤ acc.length) :
    idxs.foldl
      (fun fd i => if fd.length < 12 then fd ++ [(recent.getD i (0, 0)).2] else fd)
      acc = acc := by
  induction idxs generalizing acc with
  | nil => rfl
  | cons i t ih =>
    rw [List.foldl_cons, if_neg (by omega)]
    exact ih acc h

theorem stride_foldl_eq (recent : List (Int × ℚ)) (idxs : List Nat)
    (acc : List ℚ) (h : acc.length ≤ 12) :
    idxs.foldl
      (fun fd i => if fd.length < 12 then fd ++ [(recent.getD i (0, 0)).2] else fd)
      acc
      = (acc ++ idxs.map (fun i => (recent.getD i (0, 0)).2)).take 12 := by
  induction idxs generalizing acc with
  | nil => simp [List.take_of_length_le h]
  | cons i t ih =>
    by_cases hlt : acc.length < 12
    · rw [List.foldl_cons, if_pos hlt, ih _ (by simp; omega)]
      simp
    · have h12 : acc.length = 12 := by omega
      rw [List.foldl_cons, if_neg hlt, stride_foldl_full _ _ _ (by omega)]
      simp [List.take_append_eq_append_take, List.take_of_length_le (le_of_eq h12), h12]

theorem get_crypto_friday_data_eq (pd : List (Int × ℚ)) (cutoff : Int) :
    get_crypto_friday_data pd cutoff
      = ((List.range' 0 (((pd.filter (fun x => cutoff ≤ x.1)).length + 6) / 7) 7).map
          (fun i => ((pd.filter (fun x => cutoff ≤ x.1)).getD i (0, 0)).2)).take 12 := by
  simp only [get_crypto_friday_data]
  by_cases hpd : pd.isEmpty
  · rw [if_pos hpd]
    have hnil : pd = [] := List.isEmpty_iff.mp hpd
    subst hnil
    simp
  · rw [if_neg hpd, stride_foldl_eq _ _ [] (by simp)]
    simp

theorem map_getD_range'_sublist (l : List (Int × ℚ)) :
    ∀ (k s : Nat), (k = 0 ∨ s + 7 * (k - 1) < l.length) →
      ((List.range' s k 7).map (fun i => (l.getD i (0, 0)).2)).Sublist
        ((l.drop s).map (fun x => x.2))
  | 0, s, _ => by simp
  | (k + 1), s, h => by
    have hs : s < l.length := by omega
    rw [List.range'_succ, List.map_cons, List.drop_eq_getElem_cons hs, List.map_cons]
    have hgd : (l.getD s (0, 0)).2 = (l[s]).2 := by
      rw [List.getD_eq_getElem _ _ hs]
    rw [hgd]
    refine List.Sublist.cons₂ _ ?_
    refine (map_getD_range'_sublist l k (s + 7) (by omega)).trans ?_
    have hdd : l.drop (s + 7) = List.drop 6 (l.drop (s + 1)) := by
      rw [List.drop_drop]
    rw [hdd]
    exact List.Sublist.map _ (List.drop_sublist _ _)

/-- C6: both samplers return at most 12 points, never more than the 90-day
window holds, and their output is a sublist of the input's price column
(so chronological input order is preserved); they are total functions, so
empty or short input never raises. -/
theorem sampler_bounds :
    (∀ (hist : List Row) (cutoff : Int),
      (get_friday_data hist cutoff).length ≤ 12 ∧
      (get_friday_data hist cutoff).length
          ≤ (hist.filter (fun r => cutoff ≤ r.ts)).length ∧
      (get_friday_data hist cutoff).Sublist (closes hist)) ∧
    (∀ (pd : List (Int × ℚ)) (cutoff : Int),
      (get_crypto_friday_data pd cutoff).length ≤ 12 ∧
      (get_crypto_friday_data pd cutoff).length
          ≤ (pd.filter (fun x => cutoff ≤ x.1)).length ∧
      (get_crypto_friday_data pd cutoff).Sublist (pd.map (fun x => x.2))) := by
  constructor
  · intro hist cutoff
    simp only [get_friday_data]
    by_cases hh : hist.isEmpty
    · rw [if_pos hh]
      simp
    · rw [if_neg hh]
      by_cases hf :
          ((hist.filter (fun r => cutoff ≤ r.ts)).filter
            (fun r => r.weekday = 4)).isEmpty = false
      · rw [if_pos hf]
        refine ⟨tail12_length_le _, ?_, ?_⟩
        · have l1 := tail12_length_le_self
            (closes ((hist.filter (fun r => cutoff ≤ r.ts)).filter
              (fun r => r.weekday = 4)))
          have l2 : (closes ((hist.filter (fun r => cutoff ≤ r.ts)).filter
              (fun r => r.weekday = 4))).length
              = ((hist.filter (fun r => cutoff ≤ r.ts)).filter
                (fun r => r.weekday = 4)).length := List.length_map _ _
          have l3 := List.length_filter_le (fun r => decide (r.weekday = 4))
            (hist.filter (fun r => cutoff ≤ r.ts))
          omega
        · exact (tail12_sublist _).trans
            ((List.Sublist.map _ (List.filter_sublist _)).trans
              (List.Sublist.map _ (List.filter_sublist _)))
      · rw [if_neg hf]
        refine ⟨tail12_length_le _, ?_, ?_⟩
        · have l1 := tail12_length_le_self
            (closes (hist.filter (fun r => cutoff ≤ r.ts)))
          have l2 : (closes (hist.filter (fun r => cutoff ≤ r.ts))).length
              = (hist.filter (fun r => cutoff ≤ r.ts)).length := List.length_map _ _
          omega
        · exact (tail12_sublist _).trans (List.Sublist.map _ (List.filter_sublist _))
  · intro pd cutoff
    rw [get_crypto_friday_data_eq]
    refine ⟨?_, ?_, ?_⟩
    · rw [List.length_take]
      omega
    · rw [List.length_take, List.length_map, List.length_range']
      omega
    · refine (List.take_sublist _ _).trans ?_
      refine (map_getD_range'_sublist (pd.filter (fun x => cutoff ≤ x.1))
        (((pd.filter (fun x => cutoff ≤ x.1)).length + 6) / 7) 0 (by omega)).trans ?_
      rw [List.drop_zero]
      exact List.Sublist.map _ (List.filter_sublist _)

/-- C7 counterexample: for a nonempty series entirely older than the 90-day
cutoff, both samplers return the empty list, not the last 12 points of the
full series (`[5]` here). -/
theorem sampler_empty_window_counterexample :
    get_friday_data [⟨0, 2024, 4, 5⟩] 100 = [] ∧
    tail12 (closes [⟨0, 2024, 4, 5⟩]) = [5] ∧
    ([] : List ℚ) ≠ [5] ∧
    get_crypto_friday_data [((0 : Int), (5 : ℚ))] 100 = [] ∧
    tail12 ([((0 : Int), (5 : ℚ))].map (fun x => x.2)) = [5] := by
  refine ⟨by decide, by decide, by decide, by decide, by decide⟩

/-- C7 (amended): when the 90-day window is empty both samplers return the
empty sequence; the fallback to the last 12 points of the full series
exists only in the equity path's exception handler, which the pure
computation never reaches. -/
theorem sampler_empty_window_returns_empty :
    (∀ (hist : List Row) (cutoff : Int),
      hist.filter (fun r => cutoff ≤ r.ts) = [] →
      get_friday_data hist cutoff = []) ∧
    (∀ (pd : List (Int × ℚ)) (cutoff : Int),
      pd.filter (fun x => cutoff ≤ x.1) = [] →
      get_crypto_friday_data pd cutoff = []) := by
  constructor
  · intro hist cutoff hfil
    simp only [get_friday_data, hfil]
    simp [tail12, closes]
  · intro pd cutoff hfil
    rw [get_crypto_friday_data_eq, hfil]
    rfl

/-- Witness for C7 (amended): the concrete out-of-window inputs from the
counterexample, via the amended theorem. -/
theorem sampler_empty_window_returns_empty_witness :
    get_friday_data [⟨5, 2024, 2, 7⟩] 100 = [] ∧
    get_crypto_friday_data [((5 : Int), (7 : ℚ))] 100 = [] := by
  exact ⟨sampler_empty_window_returns_empty.1 _ 100 (by decide),
         sampler_empty_window_returns_empty.2 _ 100 (by decide)⟩

/-- C8: the crypto sampler takes every 7th point of the 90-day window in
chronological order, capped at 12 samples; a window of exactly 90 points
yields exactly the prices at window indices 0, 7, ..., 77. -/
theorem get_crypto_friday_data_stride (pd : List (Int × ℚ)) (cutoff : Int) :
    get_crypto_friday_data pd cutoff
      = ((List.range' 0 (((pd.filter (fun x => cutoff ≤ x.1)).length + 6) / 7) 7).map
          (fun i => ((pd.filter (fun x => cutoff ≤ x.1)).getD i (0, 0)).2)).take 12 ∧
    ((pd.filter (fun x => cutoff ≤ x.1)).length = 90 →
      get_crypto_friday_data pd cutoff
        = [((pd.filter (fun x => cutoff ≤ x.1)).getD 0 (0, 0)).2,
           ((pd.filter (fun x => cutoff ≤ x.1)).getD 7 (0, 0)).2,
           ((pd.filter (fun x => cutoff ≤ x.1)).getD 14 (0, 0)).2,
           ((pd.filter (fun x => cutoff ≤ x.1)).getD 21 (0, 0)).2,
           ((pd.filter (fun x => cutoff ≤ x.1)).getD 28 (0, 0)).2,
           ((pd.filter (fun x => cutoff ≤ x.1)).getD 35 (0, 0)).2,
           ((pd.filter (fun x => cutoff ≤ x.1)).getD 42 (0, 0)).2,
           ((pd.filter (fun x => cutoff ≤ x.1)).getD 49 (0, 0)).2,
           ((pd.filter (fun x => cutoff ≤ x.1)).getD 56 (0, 0)).2,
           ((pd.filter (fun x => cutoff ≤ x.1)).getD 63 (0, 0)).2,
           ((pd.filter (fun x => cutoff ≤ x.1)).getD 70 (0, 0)).2,
           ((pd.filter (fun x => cutoff ≤ x.1)).getD 77 (0, 0)).2]) := by
  refine ⟨get_crypto_friday_data_eq pd cutoff, ?_⟩
  intro h
  rw [get_crypto_friday_data_eq pd cutoff, h]
  have h13 : (90 + 6) / 7 = 13 := by norm_num
  rw [h13]
  have hr : List.range' 0 13 7 = [0, 7, 14, 21, 28, 35, 42, 49, 56, 63, 70, 77, 84] := by
    decide
  rw [hr]
  rfl

/-- Witness for C8: a concrete 90-point window (all of `samplePrices 90`
with cutoff 0) sampled at stride 7 into exactly 12 points. -/
theorem get_crypto_friday_data_stride_witness :
    get_crypto_friday_data (samplePrices 90) 0
      = [(((samplePrices 90).filter (fun x => (0 : Int) ≤ x.1)).getD 0 (0, 0)).2,
           (((samplePrices 90).filter (fun x => (0 : Int) ≤ x.1)).getD 7 (0, 0)).2,
           (((samplePrices 90).filter (fun x => (0 : Int) ≤ x.1)).getD 14 (0, 0)).2,
           (((samplePrices 90).filter (fun x => (0 : Int) ≤ x.1)).getD 21 (0, 0)).2,
           (((samplePrices 90).filter (fun x => (0 : Int) ≤ x.1)).getD 28 (0, 0)).2,
           (((samplePrices 90).filter (fun x => (0 : Int) ≤ x.1)).getD 35 (0, 0)).2,
           (((samplePrices 90).filter (fun x => (0 : Int) ≤ x.1)).getD 42 (0, 0)).2,
           (((samplePrices 90).filter (fun x => (0 : Int) ≤ x.1)).getD 49 (0, 0)).2,
           (((samplePrices 90).filter (fun x => (0 : Int) ≤ x.1)).getD 56 (0, 0)).2,
           (((samplePrices 90).filter (fun x => (0 : Int) ≤ x.1)).getD 63 (0, 0)).2,
           (((samplePrices 90).filter (fun x => (0 : Int) ≤ x.1)).getD 70 (0, 0)).2,
           (((samplePrices 90).filter (fun x => (0 : Int) ≤ x.1)).getD 77 (0, 0)).2] := by
  exact (get_crypto_friday_data_stride (samplePrices 90) 0).2 (by decide)

theorem length_filterMap_add_filter_isNone {α β : Type} (f : α → Option β)
    (l : List α) :
    (l.filterMap f).length + (l.filter (fun t => (f t).isNone)).length = l.length := by
  induction l with
  | nil => rfl
  | cons a t ih =>
    cases hf : f a <;> simp [List.filterMap_cons, List.filter_cons, hf] <;> omega

theorem collect_foldl (fetch : String → Option TickerData) (tickers : List String) :
    ∀ acc : List TickerData × List String,
      tickers.foldl
        (fun acc t =>
          match fetch t with
          | some d => (acc.1 ++ [d], acc.2)
          | none => (acc.1, acc.2 ++ [t]))
        acc
      = (acc.1 ++ tickers.filterMap fetch,
         acc.2 ++ tickers.filter (fun t => (fetch t).isNone)) := by
  induction tickers with
  | nil =>
    intro acc
    simp
  | cons t ts ih =>
    intro acc
    rw [List.foldl_cons, ih]
    cases hf : fetch t <;>
      simp [List.filterMap_cons, List.filter_cons, hf]

/-- C9: one ticker's failure never aborts the batch — for any behaviour of
the two fetchers, `display_grid` attempts every ticker, produces output for
exactly the tickers whose fetch succeeded (in order), reports exactly the
failed symbols, and accounts for every ticker. -/
theorem display_grid_batch_isolation
    (stockFetch cryptoFetch : String → Option TickerData) (tickers : List String) :
    (display_grid stockFetch cryptoFetch tickers).1
        = tickers.filterMap (display_grid_fetch stockFetch cryptoFetch) ∧
    (display_grid stockFetch cryptoFetch tickers).2
        = tickers.filter
            (fun t => (display_grid_fetch stockFetch cryptoFetch t).isNone) ∧
    (display_grid stockFetch cryptoFetch tickers).1.length
        + (display_grid stockFetch cryptoFetch tickers).2.length
        = tickers.length := by
  have h := collect_foldl (display_grid_fetch stockFetch cryptoFetch) tickers ([], [])
  unfold display_grid display_grid_collect
  rw [h]
  refine ⟨by simp, by simp, ?_⟩
  simp only [List.nil_append]
  exact length_filterMap_add_filter_isNone _ _

/-- C10: `display_grid` dispatches a ticker to the crypto provider exactly
when its upper-cased symbol is one of the fixed 12 entries of
`CRYPTO_TICKERS`; `HBAR` is present in the crypto-id mapping but absent
from that list, so any casing of `hbar` is dispatched to the stock
provider, never the crypto provider. -/
theorem dispatch_crypto_iff :
    CRYPTO_TICKERS = ["BTC", "ETH", "ADA", "DOT", "LINK", "LTC", "XRP", "DOGE",
      "SHIB", "MATIC", "AVAX", "SOL"] ∧
    CRYPTO_TICKERS.length = 12 ∧
    (∀ t : String, dispatch_provider t = .crypto ↔ upper t ∈ CRYPTO_TICKERS) ∧
    "HBAR" ∈ crypto_mapping.map (fun x => x.1) ∧
    (∀ t : String, upper t = "HBAR" → dispatch_provider t = .stock) ∧
    (∀ (sf cf : String → Option TickerData) (t : String), upper t = "HBAR" →
      display_grid_fetch sf cf t = sf t) := by
  refine ⟨rfl, rfl, ?_, by decide, ?_, ?_⟩
  · intro t
    unfold dispatch_provider
    by_cases h : upper t ∈ CRYPTO_TICKERS
    · simp [h]
    · simp [h]
  · intro t ht
    unfold dispatch_provider
    rw [ht, if_neg (by decide)]
  · intro sf cf t ht
    unfold display_grid_fetch dispatch_provider
    rw [ht, if_neg (by decide)]

/-- Witness for C10: `hbar` (lower case) upper-cases to `HBAR` and is
dispatched to the stock fetcher; `BTC` is dispatched to the crypto
provider. -/
theorem dispatch_crypto_iff_witness :
    dispatch_provider "hbar" = AssetKind.stock ∧
    dispatch_provider "BTC" = AssetKind.crypto ∧
    display_grid_fetch (fun _ => none) (fun _ => none) "hbar"
      = (none : Option TickerData) := by
  refine ⟨dispatch_crypto_iff.2.2.2.2.1 "hbar" (by decide),
          (dispatch_crypto_iff.2.2.1 "BTC").mpr (by decide),
          dispatch_crypto_iff.2.2.2.2.2 (fun _ => none) (fun _ => none) "hbar" (by decide)⟩

end StockCryptoTui
